import Mathlib

/-!
Verification development for the watchexec runtime supervisor
(`src/lib/src/watchexec.rs`).

The supervisor wires four workers (action, fs, signal, error hook) through
channels.  We shallowly embed the supervisor's state and operations:

* tokio `watch` channels (the two config channels) become a record holding the
  single current value plus a version counter; a receiver is its last-seen
  version.
* tokio bounded `mpsc` channels (the event and error buses) become a capacity,
  a queue and a receiver-liveness flag; a blocked send is modelled by a small
  step relation driven by bus events (a receive freeing a slot, the receiver
  dropping).
* the `error_hook` loop is translated directly from the source, instrumented
  so that the list of errors consumed from the bus and the list of arguments
  passed to the user handler are observable.
* `try_join!` over the four subtasks is modelled by its documented timed
  semantics: each subtask completes at some instant with a result, and the
  join resolves at the first error, or once all branches have succeeded.

Types that live in sibling modules of the crate (`RuntimeError`,
`CriticalError`, `Event`, the two `WorkingData` structs, `InitConfig`,
`RuntimeConfig`, `rte`) are not in the analysed sources; they are modelled
from the spec where marked.
-/

namespace WatchexecSpec

/-- Modelled from the spec: `action::WorkingData`, a plain cloneable
configuration snapshot consumed by the action worker. -/
structure ActionWorkingData where
  tag : Nat
deriving DecidableEq, Repr, Inhabited

/-- Modelled from the spec: `fs::WorkingData`, a plain cloneable configuration
snapshot consumed by the filesystem worker; it has a `default` value used to
seed the fs config channel. -/
structure FsWorkingData where
  tag : Nat
deriving DecidableEq, Repr, Inhabited

/-- Modelled from the spec: an `Event`, a unit of input to the action worker
(filesystem change, signal, or synthetic). -/
structure Event where
  id : Nat
deriving DecidableEq, Repr, Inhabited

/-- Modelled from the spec: a `RuntimeError` is a recoverable condition tagged
with context and detail; the reserved `Exit` variant means "graceful exit
requested". -/
inductive RuntimeError where
  | Exit : RuntimeError
  | Handler (ctx : String) (err : String) : RuntimeError
  | Other (msg : String) : RuntimeError
deriving DecidableEq, Repr

/-- Modelled from the spec: a `CriticalError` is fatal to the supervisor; its
kinds include a wrapped subtask join fault, a wrapped event-channel send
failure, and the reserved `Exit` sentinel used purely as an internal unwind
signal. -/
inductive CriticalError where
  | Exit : CriticalError
  | MainTaskJoin (msg : String) : CriticalError
  | EventChannelSend : CriticalError
  | Other (msg : String) : CriticalError
deriving DecidableEq, Repr

/-- Modelled from the spec: `rte(ctx, err)` wraps a handler failure (already
rendered to a string) as a new `RuntimeError` tagged with a context label. -/
def rte (ctx : String) (err : String) : RuntimeError :=
  RuntimeError.Handler ctx err

/-- Modelled from the spec: `InitConfig` carries the queue capacities for the
event and error buses.  The error-handling capability it also owns is moved
out at hook start (`replace(&mut init.error_handler, ...)` in the source) and
is therefore modelled as the explicit handler argument of `error_hook`. -/
structure InitConfig where
  event_channel_size : Nat
  error_channel_size : Nat
deriving DecidableEq, Repr

/-- Modelled from the spec: `RuntimeConfig` splits into the action-facing and
filesystem-facing snapshots. -/
structure RuntimeConfig where
  action : ActionWorkingData
  fs : FsWorkingData
deriving DecidableEq, Repr

/-! ### Watch (config) channels

A tokio `watch` channel holds a single current value and a version counter;
`send` overwrites the value and bumps the version (it never blocks and never
queues), failing only when every receiver has been dropped.  A receiver
remembers the last version it has seen; the value present at channel creation
counts as already seen. -/

/-- Sender-side state of a `watch` channel: the single current value, the
version counter, and whether a receiver is still alive. -/
structure WatchChannel (α : Type) where
  value : α
  version : Nat
  receiverAlive : Bool
deriving DecidableEq, Repr

/-- `watch::channel(a)`: initial value `a` at version 0, receiver alive. -/
def WatchChannel.create {α : Type} (a : α) : WatchChannel α :=
  { value := a, version := 0, receiverAlive := true }

/-- The overwrite performed by a successful `watch::Sender::send`: replace the
value, bump the version.  Total: publishing never blocks and never queues. -/
def WatchChannel.publish {α : Type} (c : WatchChannel α) (a : α) : WatchChannel α :=
  { value := a, version := c.version + 1, receiverAlive := c.receiverAlive }

/-- `watch::Sender::send`: fails if and only if the receiver side is gone. -/
def WatchChannel.send {α : Type} (c : WatchChannel α) (a : α) :
    Except Unit (WatchChannel α) :=
  if c.receiverAlive then Except.ok (c.publish a) else Except.error ()

/-- A sequence of publishes applied in order. -/
def sendAll {α : Type} (c : WatchChannel α) (cs : List α) : WatchChannel α :=
  cs.foldl WatchChannel.publish c

/-- Receiver-side state of a `watch` channel: the last version seen.  A
receiver returned by `watch::channel` has already seen the initial value, so
it starts at `seen = 0`. -/
structure WatchReceiver where
  seen : Nat
deriving DecidableEq, Repr

/-- A worker's poll (`changed().await` + `borrow_and_update`): if the channel
has moved past the receiver's seen version it observes the current (latest)
value and marks it seen, otherwise it observes no pending change. -/
def pollLatest {α : Type} (c : WatchChannel α) (r : WatchReceiver) :
    Option α × WatchReceiver :=
  if r.seen < c.version then (some c.value, { seen := c.version }) else (none, r)

lemma sendAll_version {α : Type} (cs : List α) :
    ∀ c : WatchChannel α, (sendAll c cs).version = c.version + cs.length := by
  induction cs with
  | nil => intro c; simp [sendAll]
  | cons a l ih =>
      intro c
      have h1 : sendAll c (a :: l) = sendAll (c.publish a) l := rfl
      rw [h1, ih (c.publish a)]
      simp [WatchChannel.publish]
      omega

lemma sendAll_receiverAlive {α : Type} (cs : List α) :
    ∀ c : WatchChannel α, (sendAll c cs).receiverAlive = c.receiverAlive := by
  induction cs with
  | nil => intro c; simp [sendAll]
  | cons a l ih =>
      intro c
      have h1 : sendAll c (a :: l) = sendAll (c.publish a) l := rfl
      rw [h1, ih (c.publish a)]
      rfl

lemma sendAll_value {α : Type} (cs : List α) :
    ∀ (c : WatchChannel α) (h : cs ≠ []), (sendAll c cs).value = cs.getLast h := by
  induction cs with
  | nil => intro c h; exact absurd rfl h
  | cons a l ih =>
      intro c h
      cases l with
      | nil => simp [sendAll, WatchChannel.publish]
      | cons b m =>
          have h1 : sendAll c (a :: b :: m) = sendAll (c.publish a) (b :: m) := rfl
          rw [h1, ih (c.publish a) (by simp)]
          simp [List.getLast_cons]

/-! ### Bounded mpsc channels (the event and error buses)

A tokio bounded `mpsc::channel(cap)` delivers every enqueued item exactly once
in order; `send` enqueues when a slot is free, suspends the caller when the
queue is at capacity, and fails if and only if the receiver has been
dropped. -/

/-- State of a bounded mpsc channel: capacity, the pending queue in order, and
whether the receiver is still alive. -/
structure BoundedChannel (α : Type) where
  capacity : Nat
  queue : List α
  receiverAlive : Bool
deriving DecidableEq, Repr

/-- `mpsc::channel(cap)`: empty queue, receiver alive. -/
def BoundedChannel.create {α : Type} (cap : Nat) : BoundedChannel α :=
  { capacity := cap, queue := [], receiverAlive := true }

/-- Enqueue at the back of the queue. -/
def BoundedChannel.enqueue {α : Type} (c : BoundedChannel α) (a : α) :
    BoundedChannel α :=
  { c with queue := c.queue ++ [a] }

/-- Outcome of one attempt by `mpsc::Sender::send`: the item was enqueued, the
caller must suspend (slot-full), or the channel is closed (receiver gone). -/
inductive SendOutcome (α : Type) where
  | sent (c : BoundedChannel α) : SendOutcome α
  | blocked : SendOutcome α
  | closed : SendOutcome α
deriving DecidableEq, Repr

/-- One attempt of `mpsc::Sender::send`: error when the receiver is gone,
suspend when the queue is at capacity, and otherwise enqueue. -/
def BoundedChannel.trySendStep {α : Type} (c : BoundedChannel α) (a : α) :
    SendOutcome α :=
  if c.receiverAlive = false then SendOutcome.closed
  else if c.capacity ≤ c.queue.length then SendOutcome.blocked
  else SendOutcome.sent (c.enqueue a)

/-- Environment events a suspended sender can be woken by: the consumer
receives one item (freeing a slot) or the receiver is dropped. -/
inductive BusEvent where
  | recvOne : BusEvent
  | dropReceiver : BusEvent
deriving DecidableEq, Repr

/-- Effect of an environment event on the channel. -/
def stepBus {α : Type} (c : BoundedChannel α) : BusEvent → BoundedChannel α
  | BusEvent.recvOne => { c with queue := c.queue.tail }
  | BusEvent.dropReceiver => { c with receiverAlive := false }

/-- A whole `send(event).await`: retry the send attempt across the given
environment trace.  `none` means the caller is still suspended (the item was
neither dropped nor rejected); `some` is the call's return. -/
def sendRun {α : Type} (a : α) :
    BoundedChannel α → List BusEvent → Option (Except CriticalError (BoundedChannel α))
  | c, [] =>
    match BoundedChannel.trySendStep c a with
    | SendOutcome.sent c2 => some (Except.ok c2)
    | SendOutcome.closed => some (Except.error CriticalError.EventChannelSend)
    | SendOutcome.blocked => none
  | c, e :: rest =>
    match BoundedChannel.trySendStep c a with
    | SendOutcome.sent c2 => some (Except.ok c2)
    | SendOutcome.closed => some (Except.error CriticalError.EventChannelSend)
    | SendOutcome.blocked => sendRun a (stepBus c e) rest

/-! ### The supervisor (`Watchexec`) -/

/-- Phase of the coordination task spawned by `new`: `armed` is parked on the
start gate with the captured error-bus capacity (the error bus does not exist
yet — it is created at line 80 of the source, after the gate); `running` has
allocated the error bus and spawned the subtasks. -/
inductive TaskPhase where
  | armed (errCap : Nat) : TaskPhase
  | running (errorBus : BoundedChannel RuntimeError) : TaskPhase
deriving DecidableEq, Repr

/-- The supervisor's state: the `Watchexec` struct fields (event-bus sender,
the two config-channel senders, the one-shot handle cell `AtomicTake`, the
start gate's stored permit) together with the coordination task's phase. -/
structure WState where
  eventBus : BoundedChannel Event
  actionWatch : WatchChannel ActionWorkingData
  fsWatch : WatchChannel FsWorkingData
  handleCell : Option Nat
  startPermit : Bool
  taskPhase : TaskPhase
deriving DecidableEq, Repr

/-- True once the coordination task has allocated the error bus. -/
def WState.errorBusAllocated (s : WState) : Bool :=
  match s.taskPhase with
  | TaskPhase.armed _ => false
  | TaskPhase.running _ => true

/-- `Watchexec::new`: allocates the event bus with `init.event_channel_size`,
the action config channel seeded with `runtime.action`, and the fs config
channel created with the default snapshot and immediately sent `runtime.fs`
(that send's failure branch — the source's `expect` — is unreachable because
the just-created receiver is alive, see `create_send_ok`); arms the
coordination task behind the start gate with the handle stored in the
one-shot cell.  It is a total function (never blocks) and always returns
`ok`. -/
def Watchexec.new (init : InitConfig) (runtime : RuntimeConfig) :
    Except CriticalError WState :=
  Except.ok
    { eventBus := BoundedChannel.create init.event_channel_size
      actionWatch := WatchChannel.create runtime.action
      fsWatch := (WatchChannel.create (default : FsWorkingData)).publish runtime.fs
      handleCell := some 0
      startPermit := false
      taskPhase := TaskPhase.armed init.error_channel_size }

/-- Sending on a just-created watch channel cannot fail (justifies modelling
the source's `expect` on the fs seed as a plain `publish`). -/
lemma create_send_ok {α : Type} (a b : α) :
    (WatchChannel.create a).send b = Except.ok ((WatchChannel.create a).publish b) := rfl

/-- What a call to `Watchexec::main` yields: the join handle, or the panic of
the `expect` on the emptied `AtomicTake` cell. -/
inductive MainOutcome where
  | handed (h : Nat) : MainOutcome
  | panicked (msg : String) : MainOutcome
deriving DecidableEq, Repr

/-- Is this outcome the handle hand-over? -/
def MainOutcome.isHanded : MainOutcome → Bool
  | MainOutcome.handed _ => true
  | MainOutcome.panicked _ => false

/-- `Notify::notify_one` with no waiter parked: stores (at most) one permit. -/
def notifyOne (s : WState) : WState := { s with startPermit := true }

/-- `Watchexec::main`: notify the start gate, then atomically take the handle
out of the one-shot cell; an empty cell panics ("called twice").  `AtomicTake`
makes the take atomic, so concurrent calls linearize into some sequential
order and this function applied along that order covers every
interleaving. -/
def Watchexec.main (s : WState) : MainOutcome × WState :=
  let s1 := notifyOne s
  match s1.handleCell with
  | some h => (MainOutcome.handed h, { s1 with handleCell := none })
  | none => (MainOutcome.panicked "Watchexec::main was called twice", s1)

/-- A sequence of `n` calls to `Watchexec::main` on the same value, collecting
the outcomes in order. -/
def mainCalls : Nat → WState → List MainOutcome × WState
  | 0, s => ([], s)
  | Nat.succ n, s =>
    let p := Watchexec.main s
    let q := mainCalls n p.2
    (p.1 :: q.1, q.2)

/-- One scheduling step of the armed coordination task: if the start gate
holds a permit, consume it, allocate the error bus with the captured capacity
and enter the running phase (the body after `notify.notified().await`). -/
def taskStep (s : WState) : WState :=
  match s.taskPhase, s.startPermit with
  | TaskPhase.armed cap, true =>
      { s with startPermit := false
               taskPhase := TaskPhase.running (BoundedChannel.create cap) }
  | _, _ => s

/-- Modelled from the spec: `ReconfigError` wraps the failed config-channel
send, one kind per channel. -/
inductive ReconfigError where
  | actionWatchSend : ReconfigError
  | fsWatchSend : ReconfigError
deriving DecidableEq, Repr

/-- `Watchexec::reconfigure`: publish the action snapshot, early-returning its
error via `?`; only on its success publish the fs snapshot, again with `?`. -/
def Watchexec.reconfigure (s : WState) (config : RuntimeConfig) :
    Except ReconfigError Unit × WState :=
  match s.actionWatch.send config.action with
  | Except.error _ => (Except.error ReconfigError.actionWatchSend, s)
  | Except.ok aw =>
    match s.fsWatch.send config.fs with
    | Except.error _ => (Except.error ReconfigError.fsWatchSend, { s with actionWatch := aw })
    | Except.ok fw =>
        (Except.ok (), { s with actionWatch := aw, fsWatch := fw })

/-- `Watchexec::send_event`: `event_input.send(event).await?`, run against an
environment trace; `none` means still suspended. -/
def Watchexec.send_event (s : WState) (ev : Event) (env : List BusEvent) :
    Option (Except CriticalError WState) :=
  match sendRun ev s.eventBus env with
  | none => none
  | some (Except.error e) => some (Except.error e)
  | some (Except.ok c2) => some (Except.ok { s with eventBus := c2 })

/-! ### The error hook -/

/-- The handler capability (`Box<dyn Handler<RuntimeError>>`): stateful, it
takes the current private state and an error and returns `none` for success or
`some msg` for a failure already rendered to a string, with the new state. -/
def HandlerFn (σ : Type) : Type :=
  σ → RuntimeError → Option String × σ

/-- The body of the hook loop for one non-sentinel error: invoke the handler;
on failure wrap the failure as `rte "error hook" ...` and invoke the handler
exactly once more, dropping (only logging) that second invocation's failure.
Returns the handler's final state and the invocation arguments, in order. -/
def handleErr {σ : Type} (h : HandlerFn σ) (s : σ) (err : RuntimeError) :
    σ × List RuntimeError :=
  match h s err with
  | (none, s1) => (s1, [err])
  | (some e1, s1) =>
      let wrapped := rte "error hook" e1
      ((h s1 wrapped).2, [err, wrapped])

/-- Observable record of a run of the error hook: its returned result, the
final handler state, the errors consumed from the bus in order, and every
argument the handler capability was invoked with, in order. -/
structure HookRun (σ : Type) where
  result : Except CriticalError Unit
  state : σ
  consumed : List RuntimeError
  calls : List RuntimeError

/-- `error_hook`: the consumer loop over the error bus, run on the list of
errors the bus delivers before closing (a bounded mpsc delivers each sent
error exactly once, in order).  A received `Exit` sentinel ends the loop at
once with the critical `Exit`; the bus closing (end of list) ends it with
`ok`. -/
def error_hook {σ : Type} (h : HandlerFn σ) :
    σ → List RuntimeError → HookRun σ
  | s, [] => { result := Except.ok (), state := s, consumed := [], calls := [] }
  | s, err :: rest =>
    if err = RuntimeError.Exit then
      { result := Except.error CriticalError.Exit, state := s
        consumed := [err], calls := [] }
    else
      let step := handleErr h s err
      let r := error_hook h step.1 rest
      { result := r.result, state := r.state
        consumed := err :: r.consumed, calls := step.2 ++ r.calls }

/-- The flattening of a subtask's join result (`fn flatten`): a `JoinError`
(modelled as its message) becomes `CriticalError::MainTaskJoin`. -/
def flatten (jr : Except String (Except CriticalError Unit)) :
    Except CriticalError Unit :=
  match jr with
  | Except.error msg => Except.error (CriticalError.MainTaskJoin msg)
  | Except.ok x => x

/-- The coordination task's final translation (lines 100–112):
`try_join!(...).map(drop).or_else(...)` erases the reserved `Exit` critical
error into overall success and passes every other outcome through. -/
def mainTaskResult (joined : Except CriticalError Unit) :
    Except CriticalError Unit :=
  match joined with
  | Except.error CriticalError.Exit => Except.ok ()
  | Except.error e => Except.error e
  | Except.ok _ => Except.ok ()

/-! ### Timed model of `try_join!` over the four subtasks

tokio's `try_join!` polls all branches concurrently and resolves when all
branches have completed with `Ok`, or as soon as the first branch completes
with `Err`.  We model each subtask by the instant it completes and its
result, and compute the instant at which the join resolves. -/

/-- A subtask's completion: the instant it completes and its flattened
result. -/
structure Timed where
  time : Nat
  res : Except CriticalError Unit

/-- Is this result an error? -/
def isErrRes : Except CriticalError Unit → Bool
  | Except.error _ => true
  | Except.ok _ => false

/-- The completion instants of all subtasks. -/
def allTimes (ts : List Timed) : List Nat := ts.map Timed.time

/-- The completion instants of the subtasks that complete with an error. -/
def errTimes (ts : List Timed) : List Nat :=
  (ts.filter fun t => isErrRes t.res).map Timed.time

/-- Minimum of a list of instants, `none` when empty. -/
def listMin : List Nat → Option Nat
  | [] => none
  | x :: xs => some (xs.foldl min x)

/-- Maximum of a list of instants (0 when empty). -/
def listMax (l : List Nat) : Nat := l.foldl max 0

/-- The instant `try_join!` resolves: the earliest error if any branch errors,
otherwise once the last branch has succeeded. -/
def tryJoinTime (ts : List Timed) : Nat :=
  match listMin (errTimes ts) with
  | some m => m
  | none => listMax (allTimes ts)

/-! ### Concrete instances used by witnesses and counterexamples -/

/-- A handler capability that always succeeds. -/
def hAlwaysOk : HandlerFn Unit := fun s _ => (none, s)

/-- A handler capability that always fails. -/
def hAlwaysFails : HandlerFn Unit := fun s _ => (some "handler failed", s)

/-- A concrete `InitConfig`. -/
def init0 : InitConfig := { event_channel_size := 4, error_channel_size := 2 }

/-- A concrete `RuntimeConfig`. -/
def runtime0 : RuntimeConfig :=
  { action := ActionWorkingData.mk 1, fs := FsWorkingData.mk 2 }

/-- The supervisor state `Watchexec.new init0 runtime0` returns. -/
def wst0 : WState :=
  { eventBus := BoundedChannel.create 4
    actionWatch := WatchChannel.create (ActionWorkingData.mk 1)
    fsWatch := (WatchChannel.create (default : FsWorkingData)).publish (FsWorkingData.mk 2)
    handleCell := some 0
    startPermit := false
    taskPhase := TaskPhase.armed 2 }

/-- A supervisor state whose action config receiver has been dropped while the
fs config receiver is still alive. -/
def sActionDead : WState :=
  { eventBus := BoundedChannel.create 4
    actionWatch := { value := ActionWorkingData.mk 0, version := 0, receiverAlive := false }
    fsWatch := { value := FsWorkingData.mk 0, version := 0, receiverAlive := true }
    handleCell := some 0
    startPermit := false
    taskPhase := TaskPhase.armed 2 }

/-- A concrete reconfiguration payload. -/
def cfgNew : RuntimeConfig :=
  { action := ActionWorkingData.mk 5, fs := FsWorkingData.mk 7 }

/-- A supervisor state whose event bus (capacity 1) is at capacity. -/
def wstFull : WState :=
  { wst0 with eventBus := { capacity := 1, queue := [Event.mk 0], receiverAlive := true } }

/-- Four timed subtask completions: the action worker succeeds at instant 1,
the error hook errors at instant 5, fs and signal succeed at 7 and 9. -/
def tsErr : List Timed :=
  [{ time := 1, res := Except.ok () },
   { time := 5, res := Except.error (CriticalError.Other "boom") },
   { time := 7, res := Except.ok () },
   { time := 9, res := Except.ok () }]

/-! ### Helper lemmas -/

lemma error_hook_exit_head {σ : Type} (h : HandlerFn σ) (s : σ)
    (rest : List RuntimeError) :
    error_hook h s (RuntimeError.Exit :: rest) =
      { result := Except.error CriticalError.Exit, state := s
        consumed := [RuntimeError.Exit], calls := [] } := by
  simp [error_hook]

lemma error_hook_cons_ne {σ : Type} (h : HandlerFn σ) (s : σ) (e : RuntimeError)
    (rest : List RuntimeError) (he : e ≠ RuntimeError.Exit) :
    error_hook h s (e :: rest) =
      { result := (error_hook h (handleErr h s e).1 rest).result
        state := (error_hook h (handleErr h s e).1 rest).state
        consumed := e :: (error_hook h (handleErr h s e).1 rest).consumed
        calls := (handleErr h s e).2 ++ (error_hook h (handleErr h s e).1 rest).calls } := by
  simp [error_hook, he]

lemma error_hook_no_sentinel {σ : Type} (h : HandlerFn σ) :
    ∀ (errs : List RuntimeError) (s : σ), RuntimeError.Exit ∉ errs →
      (error_hook h s errs).consumed = errs ∧
      (error_hook h s errs).result = Except.ok () := by
  intro errs
  induction errs with
  | nil => intro s _; exact ⟨rfl, rfl⟩
  | cons e rest ih =>
      intro s hno
      have he : e ≠ RuntimeError.Exit := by
        intro hh; exact hno (hh ▸ List.mem_cons_self e rest)
      have hrest : RuntimeError.Exit ∉ rest := by
        intro hh; exact hno (List.mem_cons_of_mem e hh)
      rw [error_hook_cons_ne h s e rest he]
      obtain ⟨h1, h2⟩ := ih (handleErr h s e).1 hrest
      exact ⟨by rw [h1], h2⟩

lemma error_hook_sentinel {σ : Type} (h : HandlerFn σ) :
    ∀ (pre : List RuntimeError) (s : σ) (post : List RuntimeError),
      RuntimeError.Exit ∉ pre →
      (error_hook h s (pre ++ RuntimeError.Exit :: post)).result =
        Except.error CriticalError.Exit ∧
      (error_hook h s (pre ++ RuntimeError.Exit :: post)).consumed =
        pre ++ [RuntimeError.Exit] := by
  intro pre
  induction pre with
  | nil =>
      intro s post _
      rw [List.nil_append, error_hook_exit_head]
      exact ⟨rfl, rfl⟩
  | cons e p ih =>
      intro s post hno
      have he : e ≠ RuntimeError.Exit := by
        intro hh; exact hno (hh ▸ List.mem_cons_self e p)
      have hp : RuntimeError.Exit ∉ p := by
        intro hh; exact hno (List.mem_cons_of_mem e hh)
      rw [List.cons_append, error_hook_cons_ne h s e _ he]
      obtain ⟨h1, h2⟩ := ih (handleErr h s e).1 post hp
      exact ⟨h1, by rw [h2, List.cons_append]⟩

lemma handleErr_calls_len {σ : Type} (h : HandlerFn σ) (s : σ) (err : RuntimeError) :
    (handleErr h s err).2.length ≤ 2 := by
  rcases hh : h s err with ⟨o, s1⟩
  cases o <;> simp [handleErr, hh]

lemma handleErr_calls_shape {σ : Type} (h : HandlerFn σ) (s : σ) (err : RuntimeError) :
    (handleErr h s err).2 = [err] ∨
      ∃ e1, (h s err).1 = some e1 ∧
        (handleErr h s err).2 = [err, rte "error hook" e1] := by
  rcases hh : h s err with ⟨o, s1⟩
  cases o with
  | none => left; simp [handleErr, hh]
  | some e1 => right; exact ⟨e1, by simp [hh], by simp [handleErr, hh]⟩

lemma error_hook_calls_len {σ : Type} (h : HandlerFn σ) :
    ∀ (errs : List RuntimeError) (s : σ),
      (error_hook h s errs).calls.length ≤ 2 * errs.length := by
  intro errs
  induction errs with
  | nil => intro s; simp [error_hook]
  | cons e rest ih =>
      intro s
      by_cases he : e = RuntimeError.Exit
      · subst he; rw [error_hook_exit_head]; simp
      · rw [error_hook_cons_ne h s e rest he]
        have h1 := handleErr_calls_len h s e
        have h2 := ih (handleErr h s e).1
        simp only [List.length_append, List.length_cons]
        omega

lemma mainCalls_all_panic :
    ∀ (n : Nat) (s : WState), s.handleCell = none →
      (mainCalls n s).1 =
        List.replicate n (MainOutcome.panicked "Watchexec::main was called twice") := by
  intro n
  induction n with
  | zero => intro s _; rfl
  | succ k ih =>
      intro s hcell
      have hm : Watchexec.main s =
          (MainOutcome.panicked "Watchexec::main was called twice", notifyOne s) := by
        simp [Watchexec.main, notifyOne, hcell]
      have hcell2 : (notifyOne s).handleCell = none := hcell
      simp only [mainCalls, hm]
      rw [ih (notifyOne s) hcell2, List.replicate_succ]

lemma trySendStep_alive {α : Type} (c : BoundedChannel α) (a : α)
    (halive : c.receiverAlive = true) :
    BoundedChannel.trySendStep c a =
      if c.capacity ≤ c.queue.length then SendOutcome.blocked
      else SendOutcome.sent (c.enqueue a) := by
  simp [BoundedChannel.trySendStep, halive]

lemma trySendStep_closed {α : Type} (c : BoundedChannel α) (a : α)
    (hdead : c.receiverAlive = false) :
    BoundedChannel.trySendStep c a = SendOutcome.closed := by
  simp [BoundedChannel.trySendStep, hdead]

lemma sendRun_no_error {α : Type} (a : α) :
    ∀ (env : List BusEvent) (c : BoundedChannel α),
      c.receiverAlive = true → BusEvent.dropReceiver ∉ env →
      ∀ e, sendRun a c env ≠ some (Except.error e) := by
  intro env
  induction env with
  | nil =>
      intro c halive _ e
      by_cases hfull : c.capacity ≤ c.queue.length
      · have hr : sendRun a c [] = none := by
          simp [sendRun, trySendStep_alive c a halive, hfull]
        rw [hr]; simp
      · have hr : sendRun a c [] = some (Except.ok (c.enqueue a)) := by
          simp [sendRun, trySendStep_alive c a halive, hfull]
        rw [hr]; simp
  | cons b rest ih =>
      intro c halive hmem e
      have hb : b ≠ BusEvent.dropReceiver := by
        intro hh; exact hmem (hh ▸ List.mem_cons_self b rest)
      have hrest : BusEvent.dropReceiver ∉ rest := by
        intro hh; exact hmem (List.mem_cons_of_mem b hh)
      have halive2 : (stepBus c b).receiverAlive = true := by
        cases b with
        | recvOne => exact halive
        | dropReceiver => exact absurd rfl hb
      by_cases hfull : c.capacity ≤ c.queue.length
      · have hr : sendRun a c (b :: rest) = sendRun a (stepBus c b) rest := by
          simp [sendRun, trySendStep_alive c a halive, hfull]
        rw [hr]
        exact ih (stepBus c b) halive2 hrest e
      · have hr : sendRun a c (b :: rest) = some (Except.ok (c.enqueue a)) := by
          simp [sendRun, trySendStep_alive c a halive, hfull]
        rw [hr]; simp

lemma foldl_min_le_init : ∀ (l : List Nat) (x : Nat), l.foldl min x ≤ x := by
  intro l
  induction l with
  | nil => intro x; exact Nat.le_refl x
  | cons a t ih =>
      intro x
      exact Nat.le_trans (ih (min x a)) (min_le_left x a)

lemma foldl_min_le_mem :
    ∀ (l : List Nat) (x y : Nat), y ∈ l → l.foldl min x ≤ y := by
  intro l
  induction l with
  | nil => intro x y hy; cases hy
  | cons a t ih =>
      intro x y hy
      rcases List.mem_cons.mp hy with h1 | h2
      · subst h1
        exact Nat.le_trans (foldl_min_le_init t (min x y)) (min_le_right x y)
      · exact ih (min x a) y h2

lemma foldl_min_mem :
    ∀ (l : List Nat) (x : Nat), l.foldl min x = x ∨ l.foldl min x ∈ l := by
  intro l
  induction l with
  | nil => intro x; left; rfl
  | cons a t ih =>
      intro x
      rcases ih (min x a) with h1 | h2
      · rcases Nat.le_total x a with hxa | hax
        · left
          rw [List.foldl_cons, h1]
          exact min_eq_left hxa
        · right
          rw [List.foldl_cons, h1, min_eq_right hax]
          exact List.mem_cons_self a t
      · right
        exact List.mem_cons_of_mem a h2

lemma init_le_foldl_max : ∀ (l : List Nat) (x : Nat), x ≤ l.foldl max x := by
  intro l
  induction l with
  | nil => intro x; exact Nat.le_refl x
  | cons a t ih =>
      intro x
      exact Nat.le_trans (le_max_left x a) (ih (max x a))

lemma le_foldl_max :
    ∀ (l : List Nat) (x y : Nat), y ∈ l → y ≤ l.foldl max x := by
  intro l
  induction l with
  | nil => intro x y hy; cases hy
  | cons a t ih =>
      intro x y hy
      rcases List.mem_cons.mp hy with h1 | h2
      · subst h1
        calc y ≤ max x y := le_max_right x y
        _ ≤ t.foldl max (max x y) := init_le_foldl_max t (max x y)
      · exact ih (max x a) y h2

lemma countP_handed_replicate (n : Nat) (msg : String) :
    (List.replicate n (MainOutcome.panicked msg)).countP MainOutcome.isHanded = 0 := by
  induction n with
  | zero => rfl
  | succ k ih =>
      rw [List.replicate_succ, List.countP_cons]
      simp [MainOutcome.isHanded, ih]

lemma mainCalls_first (n : Nat) (s : WState) (hdl : Nat)
    (hcell : s.handleCell = some hdl) :
    (mainCalls (n + 1) s).1 =
      MainOutcome.handed hdl ::
        List.replicate n (MainOutcome.panicked "Watchexec::main was called twice") := by
  have hm : Watchexec.main s =
      (MainOutcome.handed hdl, { notifyOne s with handleCell := none }) := by
    simp [Watchexec.main, notifyOne, hcell]
  simp only [mainCalls, hm]
  rw [mainCalls_all_panic n _ rfl]

/-! ### Claim theorems -/

/-- C1: whenever the error hook receives the graceful-exit sentinel
`RuntimeError.Exit` from the error bus, it immediately stops consuming
(nothing after the sentinel is received) and returns the reserved critical
`Exit` value, and the coordination task's final translation maps that value to
overall success `ok`, not a reported failure. -/
theorem gracefulExitEndToEnd {σ : Type} (h : HandlerFn σ) (s : σ)
    (pre post : List RuntimeError) (hpre : RuntimeError.Exit ∉ pre) :
    (error_hook h s (pre ++ RuntimeError.Exit :: post)).result =
      Except.error CriticalError.Exit ∧
    (error_hook h s (pre ++ RuntimeError.Exit :: post)).consumed =
      pre ++ [RuntimeError.Exit] ∧
    mainTaskResult (Except.error CriticalError.Exit) = Except.ok () := by
  obtain ⟨h1, h2⟩ := error_hook_sentinel h pre s post hpre
  exact ⟨h1, h2, rfl⟩

/-- Witness for `gracefulExitEndToEnd`: one ordinary error before the
sentinel, one enqueued behind it. -/
theorem gracefulExitEndToEnd_witness :
    (error_hook hAlwaysOk ()
        ([RuntimeError.Other "a"] ++ RuntimeError.Exit :: [RuntimeError.Other "b"])).result =
      Except.error CriticalError.Exit ∧
    (error_hook hAlwaysOk ()
        ([RuntimeError.Other "a"] ++ RuntimeError.Exit :: [RuntimeError.Other "b"])).consumed =
      [RuntimeError.Other "a"] ++ [RuntimeError.Exit] ∧
    mainTaskResult (Except.error CriticalError.Exit) = Except.ok () :=
  gracefulExitEndToEnd hAlwaysOk () [RuntimeError.Other "a"] [RuntimeError.Other "b"]
    (by decide)

/-- C4: per non-sentinel error the handler capability is invoked at most
twice — once with the original error and, only if that invocation failed with
some `e1`, exactly once more with `rte "error hook" e1` — so a whole run makes
at most `2 * n` invocations for `n` bus errors, and the loop continues to the
end of the bus regardless of handler failures (no further recursion, no
infinite loop on a single error). -/
theorem errorHookRecursionBound {σ : Type} (h : HandlerFn σ) (s : σ)
    (errs : List RuntimeError) :
    (error_hook h s errs).calls.length ≤ 2 * errs.length ∧
    (∀ (t : σ) (err : RuntimeError),
       (handleErr h t err).2 = [err] ∨
       ∃ e1, (h t err).1 = some e1 ∧
         (handleErr h t err).2 = [err, rte "error hook" e1]) ∧
    (RuntimeError.Exit ∉ errs → (error_hook h s errs).consumed = errs) := by
  refine ⟨error_hook_calls_len h errs s, ?_, ?_⟩
  · intro t err
    exact handleErr_calls_shape h t err
  · intro hno
    exact (error_hook_no_sentinel h errs s hno).1

/-- Witness for `errorHookRecursionBound`: a handler that always fails is
invoked exactly twice for one error — the original and its "error hook"
wrapping — and the run still terminates. -/
theorem errorHookRecursionBound_witness :
    (error_hook hAlwaysFails () [RuntimeError.Other "x"]).calls.length ≤ 2 * 1 ∧
    (error_hook hAlwaysFails () [RuntimeError.Other "x"]).consumed =
      [RuntimeError.Other "x"] ∧
    (error_hook hAlwaysFails () [RuntimeError.Other "x"]).calls =
      [RuntimeError.Other "x", rte "error hook" "handler failed"] := by
  have h := errorHookRecursionBound hAlwaysFails () [RuntimeError.Other "x"]
  exact ⟨h.1, h.2.2 (by decide), by decide⟩

/-- C8 counterexample: the claim says every `RuntimeError` sent on the error
bus is consumed by the error hook, but an error already enqueued behind the
graceful-exit sentinel is never consumed — the hook returns upon receiving the
sentinel. -/
theorem errorAfterSentinelNotConsumed :
    (error_hook hAlwaysOk () [RuntimeError.Exit, RuntimeError.Other "late"]).consumed =
      [RuntimeError.Exit] ∧
    RuntimeError.Other "late" ∉
      (error_hook hAlwaysOk () [RuntimeError.Exit, RuntimeError.Other "late"]).consumed := by
  exact ⟨rfl, by decide⟩

/-- C8 amended: every `RuntimeError` delivered by the error bus *before* the
graceful-exit sentinel is consumed exactly once by the error hook (and when no
sentinel ever arrives, every delivered error is consumed exactly once); once
the sentinel is consumed the hook stops and errors behind it are not
consumed. -/
theorem errorBusConsumedOnce {σ : Type} (h : HandlerFn σ) (s : σ) :
    (∀ errs, RuntimeError.Exit ∉ errs →
       (error_hook h s errs).consumed = errs ∧
       ∀ e, (error_hook h s errs).consumed.count e = errs.count e) ∧
    (∀ pre post, RuntimeError.Exit ∉ pre →
       (error_hook h s (pre ++ RuntimeError.Exit :: post)).consumed =
         pre ++ [RuntimeError.Exit]) := by
  constructor
  · intro errs hno
    have h1 := (error_hook_no_sentinel h errs s hno).1
    exact ⟨h1, fun e => by rw [h1]⟩
  · intro pre post hpre
    exact (error_hook_sentinel h pre s post hpre).2

/-- Witness for `errorBusConsumedOnce`: a sentinel-free delivery is consumed
in full, in order. -/
theorem errorBusConsumedOnce_witness :
    (error_hook hAlwaysOk () [RuntimeError.Other "a", RuntimeError.Other "b"]).consumed =
      [RuntimeError.Other "a", RuntimeError.Other "b"] :=
  ((errorBusConsumedOnce hAlwaysOk ()).1
    [RuntimeError.Other "a", RuntimeError.Other "b"] (by decide)).1

/-- C9: after any nonempty sequence of publishes to a config channel, a
receiver that was up to date before them observes exactly the last published
snapshot at its next poll — never an earlier one and never "no snapshot" —
while the channel keeps a single value (publishing bumps the version once per
publish and never queues). -/
theorem configLatestWins {α : Type} (c : WatchChannel α) (cs : List α)
    (hcs : cs ≠ []) (r : WatchReceiver) (hseen : r.seen ≤ c.version) :
    (pollLatest (sendAll c cs) r).1 = some (cs.getLast hcs) ∧
    (sendAll c cs).value = cs.getLast hcs ∧
    (sendAll c cs).version = c.version + cs.length := by
  have hv := sendAll_version cs c
  have hval := sendAll_value cs c hcs
  have hlen : 0 < cs.length := List.length_pos.mpr hcs
  have hlt : r.seen < (sendAll c cs).version := by
    rw [hv]; omega
  refine ⟨?_, hval, hv⟩
  simp [pollLatest, hlt, hval]

/-- Witness for `configLatestWins`: two publishes before the poll; the worker
observes only the second. -/
theorem configLatestWins_witness :
    (pollLatest (sendAll (WatchChannel.create (ActionWorkingData.mk 0))
        [ActionWorkingData.mk 1, ActionWorkingData.mk 2]) (WatchReceiver.mk 0)).1 =
      some (ActionWorkingData.mk 2) := by
  have h := configLatestWins (WatchChannel.create (ActionWorkingData.mk 0))
    [ActionWorkingData.mk 1, ActionWorkingData.mk 2] (by decide)
    (WatchReceiver.mk 0) (by decide)
  exact h.1

/-- C10: `new` seeds the two config channels asymmetrically: the action
channel is created with `runtime.action` as its initial value, so a fresh
receiver sees no pending change; the fs channel is created with the default
snapshot and then immediately sent `runtime.fs` as a published change, so a
fresh fs receiver awaiting a change observes `runtime.fs` without any
reconfigure call. -/
theorem configSeedingAsymmetry (init : InitConfig) (runtime : RuntimeConfig) :
    ∃ st, Watchexec.new init runtime = Except.ok st ∧
      st.actionWatch.value = runtime.action ∧
      st.actionWatch.version = 0 ∧
      (pollLatest st.actionWatch (WatchReceiver.mk 0)).1 = none ∧
      st.fsWatch.version = 1 ∧
      (pollLatest st.fsWatch (WatchReceiver.mk 0)).1 = some runtime.fs := by
  exact ⟨_, rfl, rfl, rfl, rfl, rfl, rfl⟩

/-- C2: on a freshly constructed supervisor, the first call to `main` obtains
the join handle and every one of the `n` subsequent calls panics (a
fatal/unrecoverable condition, not a recoverable error); along any sequence —
and hence along the linearization of any set of concurrent calls, the take
being atomic — exactly one caller receives the handle. -/
theorem mainStartOnce (init : InitConfig) (runtime : RuntimeConfig) (st : WState)
    (hnew : Watchexec.new init runtime = Except.ok st) (n : Nat) :
    (mainCalls (n + 1) st).1 =
      MainOutcome.handed 0 ::
        List.replicate n (MainOutcome.panicked "Watchexec::main was called twice") ∧
    ((mainCalls (n + 1) st).1.countP MainOutcome.isHanded) = 1 := by
  have hcell : st.handleCell = some 0 := by
    have h := hnew
    simp only [Watchexec.new, Except.ok.injEq] at h
    rw [← h]
  have h1 := mainCalls_first n st 0 hcell
  refine ⟨h1, ?_⟩
  rw [h1, List.countP_cons]
  simp [MainOutcome.isHanded, countP_handed_replicate]

/-- Witness for `mainStartOnce`: three calls in a row on a concrete
supervisor — one handle, two panics. -/
theorem mainStartOnce_witness :
    (mainCalls 3 wst0).1 =
      MainOutcome.handed 0 ::
        List.replicate 2 (MainOutcome.panicked "Watchexec::main was called twice") ∧
    ((mainCalls 3 wst0).1.countP MainOutcome.isHanded) = 1 :=
  mainStartOnce init0 runtime0 wst0 rfl 2

/-- C3 counterexample: the claim says that when publishing the action snapshot
fails the filesystem publish is still attempted, but `reconfigure` propagates
the action-channel failure with `?` and returns early: on a state whose action
receiver is dropped while the fs receiver is alive, the call errors and the fs
channel is left untouched even though its publish would have succeeded and
changed it. -/
theorem reconfigureShortCircuits :
    (Watchexec.reconfigure sActionDead cfgNew).1 =
      Except.error ReconfigError.actionWatchSend ∧
    (Watchexec.reconfigure sActionDead cfgNew).2.fsWatch = sActionDead.fsWatch ∧
    sActionDead.fsWatch.send cfgNew.fs =
      Except.ok (sActionDead.fsWatch.publish cfgNew.fs) ∧
    sActionDead.fsWatch.publish cfgNew.fs ≠ sActionDead.fsWatch := by
  exact ⟨rfl, rfl, rfl, by decide⟩

/-- C3 amended: the two publishes are sequenced, not independent — when the
action publish fails (its receiver dropped) `reconfigure` returns that error
immediately and the filesystem publish is not attempted; the filesystem
publish is attempted exactly when the action publish succeeds, and its own
failure is then the returned error. -/
theorem reconfigureOrder (s : WState) (config : RuntimeConfig) :
    (s.actionWatch.receiverAlive = false →
       (Watchexec.reconfigure s config).1 = Except.error ReconfigError.actionWatchSend ∧
       (Watchexec.reconfigure s config).2 = s) ∧
    (s.actionWatch.receiverAlive = true → s.fsWatch.receiverAlive = true →
       (Watchexec.reconfigure s config).1 = Except.ok () ∧
       (Watchexec.reconfigure s config).2.actionWatch = s.actionWatch.publish config.action ∧
       (Watchexec.reconfigure s config).2.fsWatch = s.fsWatch.publish config.fs) ∧
    (s.actionWatch.receiverAlive = true → s.fsWatch.receiverAlive = false →
       (Watchexec.reconfigure s config).1 = Except.error ReconfigError.fsWatchSend ∧
       (Watchexec.reconfigure s config).2.actionWatch = s.actionWatch.publish config.action ∧
       (Watchexec.reconfigure s config).2.fsWatch = s.fsWatch) := by
  refine ⟨?_, ?_, ?_⟩
  · intro hdead
    simp [Watchexec.reconfigure, WatchChannel.send, hdead]
  · intro ha hf
    simp [Watchexec.reconfigure, WatchChannel.send, ha, hf]
  · intro ha hf
    simp [Watchexec.reconfigure, WatchChannel.send, ha, hf]

/-- Witness for `reconfigureOrder` at the dropped-action-receiver state. -/
theorem reconfigureOrder_witness :
    (Watchexec.reconfigure sActionDead cfgNew).1 =
      Except.error ReconfigError.actionWatchSend ∧
    (Watchexec.reconfigure sActionDead cfgNew).2 = sActionDead :=
  (reconfigureOrder sActionDead cfgNew).1 rfl

/-- C5: `send_event` enqueues and returns ok when the event bus has a free
slot; when the bus is at capacity the caller is suspended — the event is
neither dropped nor turned into an error — and is resumed with the event
enqueued as soon as the consumer frees a slot; the call returns a
`CriticalError` exactly when the bus's consumer side is gone. -/
theorem sendEventContract (s : WState) (ev : Event)
    (hlen : s.eventBus.queue.length ≤ s.eventBus.capacity) :
    (s.eventBus.receiverAlive = true → s.eventBus.queue.length < s.eventBus.capacity →
       Watchexec.send_event s ev [] =
         some (Except.ok { s with eventBus := s.eventBus.enqueue ev })) ∧
    (s.eventBus.receiverAlive = true → s.eventBus.capacity ≤ s.eventBus.queue.length →
       0 < s.eventBus.capacity →
       Watchexec.send_event s ev [] = none ∧
       Watchexec.send_event s ev [BusEvent.recvOne] =
         some (Except.ok
           { s with eventBus := (stepBus s.eventBus BusEvent.recvOne).enqueue ev })) ∧
    (s.eventBus.receiverAlive = false →
       Watchexec.send_event s ev [] =
         some (Except.error CriticalError.EventChannelSend)) ∧
    (∀ env, s.eventBus.receiverAlive = true → BusEvent.dropReceiver ∉ env →
       ∀ e, Watchexec.send_event s ev env ≠ some (Except.error e)) := by
  refine ⟨?_, ?_, ?_, ?_⟩
  · intro ha hlt
    have hstep : BoundedChannel.trySendStep s.eventBus ev =
        SendOutcome.sent (s.eventBus.enqueue ev) := by
      rw [trySendStep_alive _ _ ha, if_neg (Nat.not_le.mpr hlt)]
    simp [Watchexec.send_event, sendRun, hstep]
  · intro ha hfull hcap
    have hstep : BoundedChannel.trySendStep s.eventBus ev = SendOutcome.blocked := by
      rw [trySendStep_alive _ _ ha, if_pos hfull]
    have ha2 : (stepBus s.eventBus BusEvent.recvOne).receiverAlive = true := ha
    have hlt2 : (stepBus s.eventBus BusEvent.recvOne).queue.length <
        (stepBus s.eventBus BusEvent.recvOne).capacity := by
      simp [stepBus, List.length_tail]
      omega
    have hstep2 : BoundedChannel.trySendStep (stepBus s.eventBus BusEvent.recvOne) ev =
        SendOutcome.sent ((stepBus s.eventBus BusEvent.recvOne).enqueue ev) := by
      rw [trySendStep_alive _ _ ha2, if_neg (Nat.not_le.mpr hlt2)]
    constructor
    · simp [Watchexec.send_event, sendRun, hstep]
    · simp [Watchexec.send_event, sendRun, hstep, hstep2]
  · intro hdead
    have hstep := trySendStep_closed s.eventBus ev hdead
    simp [Watchexec.send_event, sendRun, hstep]
  · intro env ha hnd e
    have hne := sendRun_no_error ev env s.eventBus ha hnd
    cases hr : sendRun ev s.eventBus env with
    | none => simp [Watchexec.send_event, hr]
    | some r =>
        cases r with
        | error e2 => exact absurd hr (hne e2)
        | ok c2 => simp [Watchexec.send_event, hr]

/-- Witness for `sendEventContract`: a full capacity-1 bus suspends the send;
one receive frees the slot and the same event is delivered. -/
theorem sendEventContract_witness :
    Watchexec.send_event wstFull (Event.mk 1) [] = none ∧
    Watchexec.send_event wstFull (Event.mk 1) [BusEvent.recvOne] =
      some (Except.ok
        { wstFull with
            eventBus := (stepBus wstFull.eventBus BusEvent.recvOne).enqueue (Event.mk 1) }) :=
  (sendEventContract wstFull (Event.mk 1) (by decide)).2.1 rfl (by decide) (by decide)

/-- C6 counterexample: the claim says the join of the four subtasks completes
as soon as any one completes, successfully or not; but with the action worker
succeeding at instant 1 and the error hook failing at instant 5 (fs and signal
still running until 7 and 9), `try_join!` resolves at instant 5, not at the
earliest completion instant 1 — a lone successful completion does not resolve
the join. -/
theorem tryJoinNotFirstCompletion :
    tryJoinTime tsErr = 5 ∧ listMin (allTimes tsErr) = some 1 ∧ (5 : Nat) ≠ 1 := by
  exact ⟨rfl, rfl, by decide⟩

/-- C6 amended: the coordination task's join is fail-fast only with respect to
errors — it resolves at the earliest instant at which some subtask completes
with an error (no later than any erroring subtask), and when every subtask
completes successfully it resolves only once the last one has completed. -/
theorem tryJoinFailFast (ts : List Timed) :
    (∀ m, listMin (errTimes ts) = some m →
       tryJoinTime ts = m ∧ m ∈ errTimes ts ∧ ∀ t ∈ errTimes ts, m ≤ t) ∧
    (listMin (errTimes ts) = none →
       tryJoinTime ts = listMax (allTimes ts) ∧
       ∀ t ∈ allTimes ts, t ≤ tryJoinTime ts) := by
  constructor
  · intro m hm
    have ht : tryJoinTime ts = m := by
      simp [tryJoinTime, hm]
    refine ⟨ht, ?_, ?_⟩
    · cases herr : errTimes ts with
      | nil =>
          rw [herr] at hm
          simp [listMin] at hm
      | cons x xs =>
          rw [herr] at hm
          simp only [listMin, Option.some.injEq] at hm
          rw [← hm]
          rcases foldl_min_mem xs x with h1 | h2
          · rw [h1]; exact List.mem_cons_self x xs
          · exact List.mem_cons_of_mem x h2
    · intro t ht2
      cases herr : errTimes ts with
      | nil => rw [herr] at ht2; cases ht2
      | cons x xs =>
          rw [herr] at hm ht2
          simp only [listMin, Option.some.injEq] at hm
          rw [← hm]
          rcases List.mem_cons.mp ht2 with h1 | h2
          · subst h1; exact foldl_min_le_init xs t
          · exact foldl_min_le_mem xs x t h2
  · intro hm
    have ht : tryJoinTime ts = listMax (allTimes ts) := by
      simp [tryJoinTime, hm]
    refine ⟨ht, ?_⟩
    intro t ht2
    rw [ht]
    exact le_foldl_max (allTimes ts) 0 t ht2

/-- Witness for `tryJoinFailFast` at the concrete completion schedule
`tsErr`. -/
theorem tryJoinFailFast_witness :
    tryJoinTime tsErr = 5 ∧ 5 ∈ errTimes tsErr := by
  have h := (tryJoinFailFast tsErr).1 5 rfl
  exact ⟨h.1, h.2.1⟩

/-- C7 counterexample: the claim says `new` allocates the error bus before
returning, but the error bus is created inside the coordination task after the
start gate (line 80 of the source), so the state `new` returns has no error
bus yet. -/
theorem newDefersErrorBus :
    ∃ st, Watchexec.new init0 runtime0 = Except.ok st ∧
      st.errorBusAllocated = false :=
  ⟨_, rfl, rfl⟩

/-- C7 amended: `new` allocates the event bus (with the configured capacity)
and one config channel per hot-reloadable subsystem, seeds them with the
initial action and filesystem snapshots taken from `runtime`, never blocks
(it is a total function) and never returns an error; the error bus, however,
is allocated by the coordination task only after the start gate releases it,
with the capacity captured from `init`. -/
theorem newAllocates (init : InitConfig) (runtime : RuntimeConfig) :
    ∃ st, Watchexec.new init runtime = Except.ok st ∧
      st.eventBus = BoundedChannel.create init.event_channel_size ∧
      st.actionWatch = WatchChannel.create runtime.action ∧
      st.fsWatch = (WatchChannel.create (default : FsWorkingData)).publish runtime.fs ∧
      st.actionWatch.value = runtime.action ∧
      st.fsWatch.value = runtime.fs ∧
      st.errorBusAllocated = false ∧
      (taskStep (Watchexec.main st).2).taskPhase =
        TaskPhase.running (BoundedChannel.create init.error_channel_size) :=
  ⟨_, rfl, rfl, rfl, rfl, rfl, rfl, rfl, rfl⟩

end WatchexecSpec
